import Mathlib

/-!
Verification of the `atomics` repository: a shallow embedding of its
concurrency primitives (Arc, SpinLock, BlockingMutex, ReaderWriterLock,
one-shot channels) together with theorems settling the specification's
claims against the code.

Machine integers (`AtomicU32`) are modelled as `Nat` with explicit
`% 2^32` wrap where the source can overflow.  All definitions are
transcribed from the Rust sources under `src/`; each definition's doc
comment names the function it embeds.
-/

/-- `2^32`, the modulus of the `u32` arithmetic used by the atomics. -/
def U32MOD : Nat := 2 ^ 32

/-- `u32::MAX = 2^32 - 1`. -/
def U32MAX : Nat := 2 ^ 32 - 1

namespace Arc

/-!
Embedding of `src/arc/src/lib.rs`.

`ArcData<T>` is the heap block shared by every handle: an `AtomicU32`
count and the payload.  We additionally track `destructorRuns`, the
number of times `drop(Box::from_raw(..))` has executed, to state the
claims about the payload's destructor.
-/

/-- The shared `ArcData<T>` block plus destructor instrumentation.
`count` is the `AtomicU32` value (a `u32`). -/
structure ArcData (T : Type) where
  count : Nat
  data : T
  destructorRuns : Nat
  deriving Repr, DecidableEq

/-- `Arc::new(value)`: the count is initialized to `0` in the source
(`count: AtomicU32::new(0)`). -/
def new {T : Type} (value : T) : ArcData T :=
  { count := 0, data := value, destructorRuns := 0 }

/-- `Arc::clone`: `self.data().count.fetch_add(1, Ordering::Acquire)`
(wrapping `u32` addition). -/
def clone {T : Type} (d : ArcData T) : ArcData T :=
  { d with count := (d.count + 1) % U32MOD }

/-- `Arc::drop`: `let v = count.fetch_sub(1, Acquire); if v == 1 { drop(Box::from_raw(..)) }`.
`fetch_sub` returns the previous value and wraps; the box (and hence the
payload's destructor) runs exactly when the previous value was `1`. -/
def dropHandle {T : Type} (d : ArcData T) : ArcData T :=
  { d with
    count := (d.count + (U32MOD - 1)) % U32MOD,
    destructorRuns := if d.count = 1 then d.destructorRuns + 1 else d.destructorRuns }

/-- `Arc::get_mut(arc)`: returns `Some(&mut data)` iff
`count.load(Acquire) == 1`. -/
def get_mut {T : Type} (d : ArcData T) : Option T :=
  if d.count = 1 then some d.data else none

end Arc

namespace Oneshot

/-!
Embedding of the blocking one-shot channel, `src/channels/src/oneshot.rs`.

The shared `Channel<T>` holds `state: AtomicU32` (0 = EMPTY, 1 = READY)
and `message: UnsafeCell<MaybeUninit<T>>`, modelled as `Option T`
(`none` = still uninitialized).
-/

/-- The shared `Channel<T>` of the blocking one-shot channel. -/
structure Channel (T : Type) where
  state : Nat
  message : Option T
  deriving Repr, DecidableEq

/-- `channel::<T>()` allocates the shared channel with
`state: AtomicU32::new(0)` and an uninitialized message cell. -/
def channel (T : Type) : Channel T := { state := 0, message := none }

/-- First atomic action of `Writer::send` on its success path: the
`state.compare_exchange(0, 1, Acquire, Relaxed)`, which stores `1`. -/
def sendStep1 {T : Type} (c : Channel T) : Channel T :=
  { c with state := 1 }

/-- Second action of `Writer::send`: `(*self.channel.message.get()).write(message)`. -/
def sendStep2 {T : Type} (c : Channel T) (m : T) : Channel T :=
  { c with message := some m }

/-- `Writer::send(self, message)`, as a whole: the compare-exchange from
`0` to `1` first; when the observed state is not `0` it panics (the
`Except.error` carries the observed state); otherwise the message write
and `wake_all` follow. -/
def send {T : Type} (c : Channel T) (m : T) : Except Nat (Channel T) :=
  if c.state = 0 then Except.ok (sendStep2 (sendStep1 c) m)
  else Except.error c.state

/-- What the load inside `Reader::read`'s loop leads to, at a given
channel configuration: while `state != 1` the reader keeps waiting
(`wait(&state, 0)` stores nothing); once the load observes `1` it does
`(*message.get()).assume_init_read()`, which on an uninitialized cell is
a read of uninitialized memory. -/
inductive ReadResult (T : Type) where
  | blocked
  | uninitRead
  | value (v : T)
  deriving Repr, DecidableEq

/-- The outcome of `Reader::read(&self)` at a fixed channel
configuration.  Note the source performs no store at all on this path:
the state and the cell are left unchanged, so the same `Channel` value
describes the shared memory after the read. -/
def readResult {T : Type} (c : Channel T) : ReadResult T :=
  if c.state = 1 then
    match c.message with
    | some v => ReadResult.value v
    | none => ReadResult.uninitRead
  else ReadResult.blocked

/-- `Reader::read` as a partial function: `some (v, c)` when the read
returns `v` leaving the shared channel at `c` (unchanged — `read` only
loads and waits); `none` when it blocks or hits uninitialized memory. -/
def read {T : Type} (c : Channel T) : Option (T × Channel T) :=
  match readResult c with
  | ReadResult.value v => some (v, c)
  | _ => none

/-- Operations other than `send` that can run while the `Writer` (and
hence the pending `send`) still exists.  By inspection of `oneshot.rs`,
the only stores to `state` in the whole file are in `Writer::send`;
`Reader::read` performs only `load` and `wait`, and both `Drop` impls
have empty bodies. -/
inductive PreSendOp where
  | readAttempt
  | dropReader
  deriving Repr, DecidableEq

/-- Effect of a pre-send operation on the shared channel: none of them
store to `state` or to the message cell. -/
def applyPre {T : Type} (c : Channel T) : PreSendOp → Channel T
  | PreSendOp.readAttempt => c
  | PreSendOp.dropReader => c

/-- The success-path operation order of `Writer::send`, with the memory
orderings the source passes (lines 61-73 of `oneshot.rs`). -/
inductive SendEvent where
  | casStateEmptyToReady (successOrd failureOrd : String)
  | writeMessage
  | wakeAll
  deriving Repr, DecidableEq

/-- The sequence of operations `Writer::send` performs on its success
path, in source order: the compare-exchange of `state` from `0` to `1`
(success ordering `Acquire`, failure ordering `Relaxed`), then the
message write, then `wake_all(&state)`. -/
def sendTrace : List SendEvent :=
  [SendEvent.casStateEmptyToReady "Acquire" "Relaxed",
   SendEvent.writeMessage,
   SendEvent.wakeAll]

/-- The success memory ordering of a state-transition event, if the
event is one. -/
def transitionOrd : SendEvent → Option String
  | SendEvent.casStateEmptyToReady so _ => some so
  | _ => none

/-- The channel value after a successful `send 42` on a fresh channel. -/
def afterSend42 : Channel Nat := { state := 1, message := some 42 }

end Oneshot

namespace SpinChannel

/-!
Embedding of the spin-variant one-shot channel,
`src/channels/src/main.rs`: states `EMPTY = 0`, `READY = 1`,
`READING = 2`, `READ = 3` on an `AtomicU8`.
-/

def EMPTY : Nat := 0
def READY : Nat := 1
def READING : Nat := 2
def READ : Nat := 3

/-- The shared `Channel<T>` of the spin variant: `state: AtomicU8` and
`data: UnsafeCell<MaybeUninit<T>>` (modelled as `Option T`). -/
structure Channel (T : Type) where
  state : Nat
  data : Option T
  deriving Repr, DecidableEq

/-- `channel::<T>()`: `state: AtomicU8::new(0)`, data uninitialized. -/
def channel (T : Type) : Channel T := { state := EMPTY, data := none }

/-- `Sender::send(self, message)`: writes the message into the cell,
then `state.store(READY, Ordering::Release)`. -/
def send {T : Type} (c : Channel T) (m : T) : Channel T :=
  { c with data := some m, state := READY }

/-- `Receiver::receive(&self)`: spins on
`state.compare_exchange(READY, READING, Acquire, Relaxed)`; on success
it returns `&(*data.get()).assume_init()` — a shared reference, the
value stays in the cell and the state is left at `READING` (it is never
advanced to `READ`).  `none` means the compare-exchange can never
succeed at this configuration, so the call spins forever. -/
def receive {T : Type} (c : Channel T) : Option (T × Channel T) :=
  if c.state = READY then
    c.data.map (fun m => (m, { c with state := READING }))
  else none

end SpinChannel

namespace RwLock

/-!
Embedding of `src/locks/src/rwlock.rs`.

State encoding (one `AtomicU32`): `0` = free; even `N` = `N/2` readers;
odd `N` = writer(s) waiting plus `(N-1)/2` readers; `u32::MAX` = writer
locked.  A second `AtomicU32`, the `writer_beacon`, is a dedicated wake
address for writers.
-/

/-- Possible outcomes of one iteration of the loop in `RwLock::read`. -/
inductive ReadOutcome where
  /-- The compare-exchange `s → s + 2` succeeded: a `ReadGuard` is
  returned and the state is now `newState`. -/
  | guard (newState : Nat)
  /-- The `assert_ne!(s, u32::MAX - 2, "Too many readers")` fired. -/
  | tooManyReaders
  /-- The compare-exchange failed observing an even value: the loop
  repeats with `s` set to that value, without parking. -/
  | retry (s : Nat)
  /-- `wait(&self.state, expected)` was called, then
  `s = self.state.load(Acquire)`: the loop repeats with `s = reload`. -/
  | parkRetry (expected reload : Nat)
  deriving Repr, DecidableEq

/-- One iteration of the `loop` in `RwLock::read`, as a function of the
observed state `s`, the compare-exchange result (`none` = success,
`some e` = failure observing `e`), and the value `reload` a subsequent
fresh `self.state.load(Acquire)` returns.  Mirrors the source: the even
branch asserts `s != u32::MAX - 2`, then compare-exchanges `s → s + 2`
(wrapping); on failure `s = e` falls through to the odd test, which
calls `wait(&self.state, u32::MAX)` and reloads. -/
def readIter (s : Nat) (casResult : Option Nat) (reload : Nat) : ReadOutcome :=
  if s % 2 = 0 then
    if s = U32MAX - 2 then ReadOutcome.tooManyReaders
    else
      match casResult with
      | none => ReadOutcome.guard ((s + 2) % U32MOD)
      | some e =>
        if e % 2 = 1 then ReadOutcome.parkRetry U32MAX reload
        else ReadOutcome.retry e
  else ReadOutcome.parkRetry U32MAX reload

/-- Possible outcomes of one iteration of the loop in `RwLock::write`. -/
inductive WriteOutcome where
  /-- The compare-exchange `0 → u32::MAX` succeeded: a `WriteGuard` is
  returned. -/
  | guard
  /-- `wait(&self.writer_beacon, expected)` was called, then the loop
  retries the compare-exchange. -/
  | parkOnBeacon (expected : Nat)
  /-- The second load saw `0`: no park, the loop retries at once. -/
  | retry
  deriving Repr, DecidableEq

/-- One iteration of the `while let Err(e)` loop in `RwLock::write`.
`casObserved` is the state value the compare-exchange
`compare_exchange(0, u32::MAX, Acquire, Relaxed)` observed (it succeeds
iff that is `0`); `load1` and `load2` are the values the two subsequent
`self.state.load(Ordering::Acquire)` calls return.  Note the source
binds `load1` to a local named `writer_beacon` but loads it from
`self.state`, and passes it as the expected value of
`wait(&self.writer_beacon, ..)`; the `writer_beacon` field itself is
never read here, which is why its value is not even an input. -/
def writeIter (casObserved load1 load2 : Nat) : WriteOutcome :=
  if casObserved = 0 then WriteOutcome.guard
  else
    let writer_beacon := load1
    if load2 ≠ 0 then WriteOutcome.parkOnBeacon writer_beacon
    else WriteOutcome.retry

end RwLock

namespace Mutex

/-!
Embedding of `src/locks/src/lib/mutex.rs` (`Mutex::lock`).

`lock` is modelled as a trace generator: the environment is a pair of
oracles giving the result of the `i`-th `compare_exchange(0, 1)` and the
prior value returned by the `j`-th `swap(2)`; `fuel` bounds the
unbounded `while` loop (the source may genuinely park forever). -/

def UNLOCKED : Nat := 0
def LOCKED : Nat := 1
def LOCKED_WITH_WAITERS : Nat := 2

/-- `const SPIN_LOCK_N: u32 = 100`. -/
def SPIN_LOCK_N : Nat := 100

/-- The observable actions `Mutex::lock` performs on the atomic state. -/
inductive LockEvent where
  /-- `state.compare_exchange(expected, new, Acquire, Relaxed)` with the
  given success flag. -/
  | cas (expected new : Nat) (success : Bool)
  /-- `state.swap(stored, Acquire)` returning prior value `prev`. -/
  | swap (stored prev : Nat)
  /-- `wait(&state, expected)`. -/
  | park (expected : Nat)
  deriving Repr, DecidableEq

/-- The `for _ in 0..SPIN_LOCK_N` loop: each attempt is the same
`compare_exchange(0, 1, Acquire, Relaxed)`; on success the function
returns a guard at once.  Returns the event list and whether a guard was
returned.  `i` is the oracle index of the next compare-exchange. -/
def spinPhase (casO : Nat → Bool) : Nat → Nat → List LockEvent × Bool
  | 0, _ => ([], false)
  | n + 1, i =>
    if casO i then ([LockEvent.cas 0 1 true], true)
    else
      let r := spinPhase casO n (i + 1)
      (LockEvent.cas 0 1 false :: r.1, r.2)

/-- The `while self.state.swap(2, Acquire) != 0 { wait(&self.state, 2) }`
loop: swap to `LOCKED_WITH_WAITERS`; the prior value `swapO j` being
non-zero means the lock was held, so park with expected value `2` and
retry; a prior of `0` ends the loop and the guard is returned.  `none`
when `fuel` runs out (the thread is still parked). -/
def swapPhase (swapO : Nat → Nat) : Nat → Nat → Option (List LockEvent)
  | 0, _ => none
  | fuel + 1, j =>
    if swapO j = 0 then some [LockEvent.swap 2 0]
    else
      (swapPhase swapO fuel (j + 1)).map
        (fun t => LockEvent.swap 2 (swapO j) :: LockEvent.park 2 :: t)

/-- `Mutex::lock(&self)`: one initial `compare_exchange(0, 1)`; on
success the guard is returned immediately; otherwise the bounded spin
loop of `SPIN_LOCK_N` further attempts of the same compare-exchange;
if all fail, the swap-to-2 loop.  Returns the full event trace when the
call returns a guard within `fuel` swap iterations. -/
def lock (casO : Nat → Bool) (swapO : Nat → Nat) (fuel : Nat) :
    Option (List LockEvent) :=
  if casO 0 then some [LockEvent.cas 0 1 true]
  else
    let r := spinPhase casO SPIN_LOCK_N 1
    if r.2 then some (LockEvent.cas 0 1 false :: r.1)
    else
      (swapPhase swapO fuel 0).map
        (fun t => LockEvent.cas 0 1 false :: (r.1 ++ t))

/-- The shape of a completed swap-phase trace: one `swap(2)` observing a
non-zero prior followed by one `park` with expected `2`, for each prior
in `ps`, ending with the `swap(2)` that observed `0` and acquired. -/
def swapTraceOf : List Nat → List LockEvent
  | [] => [LockEvent.swap 2 0]
  | p :: ps => LockEvent.swap 2 p :: LockEvent.park 2 :: swapTraceOf ps

/-- Oracle for the C7 witness: every compare-exchange fails. -/
def wCasO : Nat → Bool := fun _ => false

/-- Oracle for the C7 witness: the first swap observes `2`, later ones
observe `0`. -/
def wSwapO : Nat → Nat := fun j => if j = 0 then 2 else 0

/-- The trace `lock wCasO wSwapO 2` produces. -/
def wTrace : List LockEvent :=
  LockEvent.cas 0 1 false ::
    (List.replicate 100 (LockEvent.cas 0 1 false) ++
      [LockEvent.swap 2 2, LockEvent.park 2, LockEvent.swap 2 0])

end Mutex

namespace CounterProg

/-!
Model for the mutual-exclusion counter property (spec §8; C8).

`N` threads each run `M` iterations of: acquire the lock, increment a
shared counter once, release the lock — the programs of
`src/spin-lock/src/main.rs` and of the `to_100000` test in
`src/locks/src/lib/mutex.rs`.

The lock state is one atomic integer covering both primitives:
* SpinLock (`spin_lock.rs`): `lock()` loops `swap(true, Acquire)`;
  acquisition is the swap that observes `false` (a swap observing `true`
  changes nothing — a stutter).  Guard drop stores `false`.  In the
  model: acquisition takes `lockSt` from `0` to `1`; release stores `0`.
* BlockingMutex (`mutex.rs`): `compare_exchange(0, 1)` acquires from
  `0` to `1`; the slow path `swap(2)` acquires when it observes `0`
  (leaving state `2`) and otherwise just stores `2` and parks
  (`markWaiters` below; parking itself changes no shared state).
  `unlock()` swaps the state to `0` (waking is a no-op on the state).

Every shared-state transition of either source program is one of the
four `Step` constructors (failed compare-exchanges, `wait` and `wake`
calls change no shared state and are stutters), so a safety property of
all `Step`-reachable states covers both locks.
-/

/-- Where a thread is in its current loop iteration: outside the
critical section, holding the lock before its increment, or holding the
lock after its increment. -/
inductive Phase where
  | idle
  | locked
  | inced
  deriving Repr, DecidableEq

/-- One thread: its phase and the number of loop iterations it has not
yet completed. -/
structure TState where
  phase : Phase
  rem : Nat
  deriving Repr, DecidableEq

/-- Whether a thread is inside the critical section. -/
def nonIdle (t : TState) : Bool := t.phase != Phase.idle

/-- The whole shared-memory configuration: the lock's atomic state
(`0` free, `1` locked, `2` locked-with-waiters), the shared counter and
the `N` threads. -/
structure Sys where
  lockSt : Nat
  counter : Nat
  threads : List TState
  deriving Repr, DecidableEq

/-- Initial configuration: lock free, counter `0`, `N` threads each
with `M` iterations to run. -/
def init (N M : Nat) : Sys :=
  { lockSt := 0, counter := 0, threads := List.replicate N ⟨Phase.idle, M⟩ }

/-- Interleaving semantics: one atomic action of one thread. -/
inductive Step : Sys → Sys → Prop
  /-- Thread `i` acquires the free lock: SpinLock's `swap(true)`
  observing `false`, Mutex's `compare_exchange(0, 1)` succeeding
  (`v = 1`), or Mutex's slow-path `swap(2)` observing `0` (`v = 2`). -/
  | acquire {s : Sys} (i : Nat) (t : TState) (v : Nat) :
      s.threads[i]? = some t → t.phase = Phase.idle → t.rem ≠ 0 →
      s.lockSt = 0 → (v = 1 ∨ v = 2) →
      Step s ⟨v, s.counter, s.threads.set i ⟨Phase.locked, t.rem⟩⟩
  /-- Thread `i`, contending for the Mutex, runs `swap(2)` observing a
  non-zero prior: the state becomes `2` and the thread parks (no other
  shared state changes). -/
  | markWaiters {s : Sys} (i : Nat) (t : TState) :
      s.threads[i]? = some t → t.phase = Phase.idle → t.rem ≠ 0 →
      s.lockSt ≠ 0 →
      Step s ⟨2, s.counter, s.threads⟩
  /-- Thread `i`, holding the lock, performs its `*guard += 1`. -/
  | incr {s : Sys} (i : Nat) (t : TState) :
      s.threads[i]? = some t → t.phase = Phase.locked →
      Step s ⟨s.lockSt, s.counter + 1, s.threads.set i ⟨Phase.inced, t.rem⟩⟩
  /-- Thread `i` releases the lock (guard drop): SpinLock stores
  `false`, Mutex swaps the state to `0`; that iteration is complete. -/
  | release {s : Sys} (i : Nat) (t : TState) :
      s.threads[i]? = some t → t.phase = Phase.inced →
      Step s ⟨0, s.counter, s.threads.set i ⟨Phase.idle, t.rem - 1⟩⟩

/-- Reflexive-transitive closure of `Step`. -/
inductive Steps : Sys → Sys → Prop
  | refl (s : Sys) : Steps s s
  | tail {s t u : Sys} : Steps s t → Step t u → Steps s u

/-- The number of increments thread `t` has already performed, out of
its `M` total. -/
def contrib (M : Nat) (t : TState) : Nat :=
  match t.phase with
  | Phase.inced => M - t.rem + 1
  | _ => M - t.rem

/-- Inductive invariant of the counter programs: the counter equals the
total number of increments performed; at most one thread is inside the
critical section; per-thread bookkeeping bounds; and a free lock means
nobody is inside the critical section. -/
def Inv (N M : Nat) (s : Sys) : Prop :=
  s.threads.length = N ∧
  s.counter = (s.threads.map (contrib M)).sum ∧
  s.threads.countP nonIdle ≤ 1 ∧
  (∀ t ∈ s.threads, t.rem ≤ M ∧ (t.phase ≠ Phase.idle → 1 ≤ t.rem)) ∧
  (s.lockSt = 0 → ∀ t ∈ s.threads, t.phase = Phase.idle)

end CounterProg

/-!
## Theorems

One theorem per claim of the specification, with witnesses and
counterexamples where required, preceded by the helper lemmas they
share.
-/

/-- C1: the claim reads "after all K+1 handles are dropped the wrapped
value's destructor runs exactly once, and it runs only after the last
handle is dropped".  The code initializes the count to `0` and frees
when `fetch_sub` returns `1`; evaluating the embedding shows that with
`K = 0` clones a single drop runs the destructor zero times (the value
leaks), while with `K = 1` clone the destructor has already run after
the first of the two drops, i.e. while a handle is still live. -/
theorem arc_c1_destructor_miscount :
    (Arc.dropHandle (Arc.new 0)).destructorRuns = 0 ∧
    (Arc.dropHandle (Arc.clone (Arc.new 0))).destructorRuns = 1 := by
  constructor <;> rfl

/-- C9: for a handle freshly created by `new` and never cloned,
`get_mut` returns `none` (the count is `0`, and `get_mut` demands it
read exactly `1`); after exactly one clone — two live handles — the
count reads `1`, so `get_mut` returns a mutable borrow of the data. -/
theorem arc_c9_get_mut (T : Type) (v : T) :
    Arc.get_mut (Arc.new v) = none ∧
    Arc.get_mut (Arc.clone (Arc.new v)) = some v := by
  refine ⟨?_, ?_⟩ <;> simp [Arc.get_mut, Arc.new, Arc.clone, U32MOD]

/-- C2: the claim reads "send first writes the value into the shared
message cell, then performs a release-ordered transition of the state to
READY, then wakes any parked receiver".  In the source the transition to
READY is the *first* operation of `send` and uses `Acquire` (not
`Release`) success ordering; the message write comes second.
Consequently a reader scheduled between the two steps observes
`state = 1` with the cell still uninitialized, and `assume_init_read`
reads uninitialized memory. -/
theorem oneshot_c2_send_order_bug :
    Oneshot.sendTrace.length = 3 ∧
    Oneshot.sendTrace[0]? =
      some (Oneshot.SendEvent.casStateEmptyToReady "Acquire" "Relaxed") ∧
    Oneshot.sendTrace[1]? = some Oneshot.SendEvent.writeMessage ∧
    Oneshot.sendTrace[2]? = some Oneshot.SendEvent.wakeAll ∧
    Oneshot.sendTrace.filterMap Oneshot.transitionOrd = ["Acquire"] ∧
    Oneshot.readResult (Oneshot.sendStep1 (Oneshot.channel Nat)) =
      Oneshot.ReadResult.uninitRead := by
  refine ⟨rfl, rfl, rfl, rfl, rfl, rfl⟩

/-- C6: the claim reads "receive returns the payload by value, moving it
out of the cell, and consumes the receiving handle, so that a second
receive on the same channel cannot be expressed".  In the source
`Reader::read` takes `&self` and leaves the shared channel completely
unchanged, so a second `read` on the same channel is expressible and
returns the moved-out payload a second time; and the spin variant's
`Receiver::receive` also takes `&self`, returns a shared reference
(leaving the payload in the cell), and a second call spins forever
(state stuck at `READING`) instead of being unrepresentable. -/
theorem oneshot_c6_second_read_expressible :
    Oneshot.send (Oneshot.channel Nat) 42 = Except.ok Oneshot.afterSend42 ∧
    Oneshot.read Oneshot.afterSend42 = some (42, Oneshot.afterSend42) ∧
    (Oneshot.read Oneshot.afterSend42).bind (fun p => Oneshot.read p.2) =
      some (42, Oneshot.afterSend42) ∧
    SpinChannel.receive (SpinChannel.send (SpinChannel.channel Nat) 7) =
      some (7, { state := SpinChannel.READING, data := some 7 }) ∧
    SpinChannel.receive
      { state := SpinChannel.READING, data := some (7 : Nat) } = none := by
  refine ⟨rfl, rfl, rfl, rfl, rfl⟩

/-- C10: the `state` of the blocking one-shot channel still reads `0`
whenever `send` runs.  `channel()` initializes `state` to `0`; the only
stores to `state` in `oneshot.rs` are inside `Writer::send` itself, and
`send` consumes the sole `Writer`, so every operation that can precede
the single `send` leaves `state` untouched.  Hence the compare-exchange
from `0` to `1` succeeds and the panic branch is unreachable. -/
theorem oneshot_c10_send_never_panics (T : Type) (m : T)
    (ops : List Oneshot.PreSendOp) :
    (ops.foldl Oneshot.applyPre (Oneshot.channel T)).state = 0 ∧
    Oneshot.send (ops.foldl Oneshot.applyPre (Oneshot.channel T)) m =
      Except.ok { state := 1, message := some m } := by
  have hfix : ops.foldl Oneshot.applyPre (Oneshot.channel T) = Oneshot.channel T := by
    induction ops with
    | nil => rfl
    | cons o os ih => cases o <;> simpa [Oneshot.applyPre] using ih
  rw [hfix]
  exact ⟨rfl, rfl⟩

/-- C3 counterexample: the claim reads "whenever the loaded state value
is odd, the thread parks on the state address passing as expected value
the state value it just observed".  At the concrete odd observed value
`s = 1` the iteration does park and retry, but the expected value it
passes to `wait(&self.state, ..)` is `u32::MAX`, not the observed `1`. -/
theorem rw_read_c3_cex :
    RwLock.readIter 1 none 0 = RwLock.ReadOutcome.parkRetry U32MAX 0 ∧
    RwLock.readIter 1 none 0 ≠ RwLock.ReadOutcome.parkRetry 1 0 := by
  refine ⟨rfl, ?_⟩
  intro h
  rw [show RwLock.readIter 1 none 0 = RwLock.ReadOutcome.parkRetry U32MAX 0 from rfl] at h
  have : U32MAX = 1 := by
    injection h with h1 h2
  exact absurd this (by decide)

/-- C3 amended: in `RwLock::read`, whenever the loaded state value is
odd (a writer is queued or holds the lock), the thread parks on the
state address passing as expected value the constant `u32::MAX` (the
write-locked sentinel) — not the value it just observed — and then
retries from a fresh load of the state. -/
theorem rw_read_c3_parks_on_max (s : Nat) (casResult : Option Nat) (reload : Nat)
    (hodd : s % 2 = 1) :
    RwLock.readIter s casResult reload = RwLock.ReadOutcome.parkRetry U32MAX reload := by
  unfold RwLock.readIter
  have : ¬ s % 2 = 0 := by omega
  simp [this]

/-- C3 witness: the amended theorem at the concrete odd state `3`. -/
theorem rw_read_c3_witness :
    (3 : Nat) % 2 = 1 ∧
    RwLock.readIter 3 none 5 = RwLock.ReadOutcome.parkRetry U32MAX 5 :=
  ⟨by decide, rw_read_c3_parks_on_max 3 none 5 (by decide)⟩

/-- C4: the claim reads "the expected value passed to the park call on
the writer beacon is the writer beacon's current value".  The source
binds `let writer_beacon = self.state.load(Acquire)` — it loads the
*state* field — and passes that as the expected value of
`wait(&self.writer_beacon, ..)`; the beacon field itself is never read.
Concretely, with the state write-locked (`u32::MAX`) and the beacon at
its initial `0`, the park call receives expected value `u32::MAX`,
which is not the beacon's current value `0`. -/
theorem rw_write_c4_wrong_expected :
    RwLock.writeIter U32MAX U32MAX U32MAX =
      RwLock.WriteOutcome.parkOnBeacon U32MAX ∧
    RwLock.WriteOutcome.parkOnBeacon U32MAX ≠
      RwLock.WriteOutcome.parkOnBeacon 0 := by
  refine ⟨rfl, ?_⟩
  intro h
  injection h with h1
  exact absurd h1 (by decide)

/-- C5: the claim reads "for every even state value at which admitting
one more reader would overflow the reader-count encoding, the operation
aborts with a fatal assertion before incrementing the state".  The
overflow point is the largest even state `u32::MAX - 1 = 2^32 - 2`,
where `s + 2` wraps to `0`; but the source's assertion compares `s`
against `u32::MAX - 2 = 2^32 - 3`, an odd constant that an even `s` can
never equal, so the assertion never fires: the iteration hands out a
guard and wraps the state to `0` (the lock suddenly reads as free). -/
theorem rw_read_c5_ceiling_unchecked :
    (U32MAX - 2) % 2 = 1 ∧
    RwLock.readIter (U32MAX - 1) none 0 = RwLock.ReadOutcome.guard 0 := by
  refine ⟨by decide, ?_⟩
  have h0 : (U32MAX - 1) % 2 = 0 := by decide
  have h1 : ¬ (U32MAX - 1 = U32MAX - 2) := by decide
  have h2 : (U32MAX - 1 + 2) % U32MOD = 0 := by decide
  simp [RwLock.readIter, h0, h1, h2]

/-- If the spin loop ends without acquiring, its trace is exactly `n`
failed compare-exchanges. -/
theorem mutex_spinPhase_false (casO : Nat → Bool) :
    ∀ n i : Nat, (Mutex.spinPhase casO n i).2 = false →
      (Mutex.spinPhase casO n i).1 =
        List.replicate n (Mutex.LockEvent.cas 0 1 false) := by
  intro n
  induction n with
  | zero => intro i _; rfl
  | succ n ih =>
    intro i h
    cases hc : casO i with
    | true => simp [Mutex.spinPhase, hc] at h
    | false =>
      simp only [Mutex.spinPhase, hc, Bool.false_eq_true, if_false] at h ⊢
      rw [List.replicate_succ]
      exact congrArg _ (ih (i + 1) h)

/-- If the spin loop acquires, its trace is some `k < n` failed
compare-exchanges followed by the successful one. -/
theorem mutex_spinPhase_true (casO : Nat → Bool) :
    ∀ n i : Nat, (Mutex.spinPhase casO n i).2 = true →
      ∃ k, k < n ∧ (Mutex.spinPhase casO n i).1 =
        List.replicate k (Mutex.LockEvent.cas 0 1 false) ++
          [Mutex.LockEvent.cas 0 1 true] := by
  intro n
  induction n with
  | zero => intro i h; simp [Mutex.spinPhase] at h
  | succ n ih =>
    intro i h
    cases hc : casO i with
    | true =>
      refine ⟨0, Nat.succ_pos n, ?_⟩
      simp [Mutex.spinPhase, hc]
    | false =>
      simp only [Mutex.spinPhase, hc, Bool.false_eq_true, if_false] at h ⊢
      obtain ⟨k, hk, hshape⟩ := ih (i + 1) h
      refine ⟨k + 1, Nat.succ_lt_succ hk, ?_⟩
      rw [List.replicate_succ, List.cons_append]
      exact congrArg _ hshape

/-- Every completed swap-phase trace consists of swaps observing
non-zero priors, each followed by a park with expected value `2`,
terminated by the swap that observed `0`. -/
theorem mutex_swapPhase_shape (swapO : Nat → Nat) :
    ∀ fuel j t, Mutex.swapPhase swapO fuel j = some t →
      ∃ ps, (∀ p ∈ ps, p ≠ 0) ∧ t = Mutex.swapTraceOf ps := by
  intro fuel
  induction fuel with
  | zero => intro j t h; simp [Mutex.swapPhase] at h
  | succ fuel ih =>
    intro j t h
    by_cases hz : swapO j = 0
    · simp only [Mutex.swapPhase, hz, if_pos, Option.some_inj] at h
      exact ⟨[], by simp, by simp [← h, Mutex.swapTraceOf]⟩
    · simp only [Mutex.swapPhase, hz, if_neg, if_false, Option.map_eq_some'] at h
      obtain ⟨t', ht', hmap⟩ := h
      obtain ⟨ps, hps, hshape⟩ := ih (j + 1) t' ht'
      refine ⟨swapO j :: ps, ?_, ?_⟩
      · intro p hp
        rcases List.mem_cons.mp hp with hp | hp
        · exact hp ▸ hz
        · exact hps p hp
      · rw [← hmap, hshape, Mutex.swapTraceOf]

/-- C7: `Mutex::lock` follows exactly the claimed algorithm.  For every
environment (oracles for the compare-exchange and swap results) under
which `lock` returns a guard, its event trace is: one
`compare_exchange(UNLOCKED, LOCKED)`, and on success an immediate
return; on failure at most `SPIN_LOCK_N = 100` retries of that same
compare-exchange, returning on the first success; and if all fail, a
sequence of `swap`s to `LOCKED_WITH_WAITERS = 2`, each non-zero prior
value followed by a `park` on the state address with expected value `2`,
ending with the swap that returned `UNLOCKED = 0`, whereupon the guard
is returned. -/
theorem mutex_lock_c7 (casO : Nat → Bool) (swapO : Nat → Nat) (fuel : Nat)
    (tr : List Mutex.LockEvent) (h : Mutex.lock casO swapO fuel = some tr) :
    (casO 0 = true → tr = [Mutex.LockEvent.cas 0 1 true]) ∧
    (casO 0 = false →
      (∃ k, k < Mutex.SPIN_LOCK_N ∧
        tr = Mutex.LockEvent.cas 0 1 false ::
          (List.replicate k (Mutex.LockEvent.cas 0 1 false) ++
            [Mutex.LockEvent.cas 0 1 true])) ∨
      (∃ ps, (∀ p ∈ ps, p ≠ 0) ∧
        tr = Mutex.LockEvent.cas 0 1 false ::
          (List.replicate Mutex.SPIN_LOCK_N (Mutex.LockEvent.cas 0 1 false) ++
            Mutex.swapTraceOf ps))) := by
  cases h0 : casO 0 with
  | true =>
    refine ⟨fun _ => ?_, fun hfalse => by simp [h0] at hfalse⟩
    simp only [Mutex.lock, h0, if_pos, Option.some_inj] at h
    exact h.symm
  | false =>
    refine ⟨fun htrue => by simp [h0] at htrue, fun _ => ?_⟩
    simp only [Mutex.lock, h0, Bool.false_eq_true, if_false] at h
    cases hr2 : (Mutex.spinPhase casO Mutex.SPIN_LOCK_N 1).2 with
    | true =>
      left
      rw [hr2] at h
      rw [if_pos rfl, Option.some_inj] at h
      obtain ⟨k, hk, hshape⟩ := mutex_spinPhase_true casO Mutex.SPIN_LOCK_N 1 hr2
      exact ⟨k, hk, by rw [← h, hshape]⟩
    | false =>
      right
      rw [hr2] at h
      rw [if_neg (by simp), Option.map_eq_some'] at h
      obtain ⟨t', ht', hmap⟩ := h
      obtain ⟨ps, hps, hshape⟩ := mutex_swapPhase_shape swapO fuel 0 t' ht'
      refine ⟨ps, hps, ?_⟩
      rw [← hmap, hshape, mutex_spinPhase_false casO Mutex.SPIN_LOCK_N 1 hr2]

/-- C7 witness: the theorem applied to a concrete environment in which
every compare-exchange fails and the first swap observes `2` while the
second observes `0`. -/
theorem mutex_lock_c7_witness :
    (Mutex.wCasO 0 = true → Mutex.wTrace = [Mutex.LockEvent.cas 0 1 true]) ∧
    (Mutex.wCasO 0 = false →
      (∃ k, k < Mutex.SPIN_LOCK_N ∧
        Mutex.wTrace = Mutex.LockEvent.cas 0 1 false ::
          (List.replicate k (Mutex.LockEvent.cas 0 1 false) ++
            [Mutex.LockEvent.cas 0 1 true])) ∨
      (∃ ps, (∀ p ∈ ps, p ≠ 0) ∧
        Mutex.wTrace = Mutex.LockEvent.cas 0 1 false ::
          (List.replicate Mutex.SPIN_LOCK_N (Mutex.LockEvent.cas 0 1 false) ++
            Mutex.swapTraceOf ps))) :=
  mutex_lock_c7 Mutex.wCasO Mutex.wSwapO 2 Mutex.wTrace (by decide)

/-- Replacing index `i` (which holds `a`) by `x` changes a mapped sum by
exactly the difference between `f x` and `f a` (stated additively). -/
theorem list_sum_map_set {α : Type} (f : α → Nat) :
    ∀ (l : List α) (i : Nat) (x a : α), l[i]? = some a →
      ((l.set i x).map f).sum + f a = (l.map f).sum + f x := by
  intro l
  induction l with
  | nil => intro i x a h; simp at h
  | cons b bs ih =>
    intro i x a h
    cases i with
    | zero =>
      simp only [List.getElem?_cons_zero, Option.some_inj] at h
      subst h
      simp only [List.set_cons_zero, List.map_cons, List.sum_cons]
      omega
    | succ n =>
      simp only [List.getElem?_cons_succ] at h
      have := ih n x a h
      simp only [List.set_cons_succ, List.map_cons, List.sum_cons]
      omega

/-- The same update lemma for `countP` (stated additively). -/
theorem list_countP_set {α : Type} (p : α → Bool) :
    ∀ (l : List α) (i : Nat) (x a : α), l[i]? = some a →
      (l.set i x).countP p + (if p a then 1 else 0) =
        l.countP p + (if p x then 1 else 0) := by
  intro l
  induction l with
  | nil => intro i x a h; simp at h
  | cons b bs ih =>
    intro i x a h
    cases i with
    | zero =>
      simp only [List.getElem?_cons_zero, Option.some_inj] at h
      subst h
      simp only [List.set_cons_zero, List.countP_cons]
      omega
    | succ n =>
      simp only [List.getElem?_cons_succ] at h
      have := ih n x a h
      simp only [List.set_cons_succ, List.countP_cons]
      omega

/-- A mapped sum over a list of constant images. -/
theorem list_sum_map_const {α : Type} (f : α → Nat) (c : Nat) :
    ∀ l : List α, (∀ a ∈ l, f a = c) → (l.map f).sum = l.length * c := by
  intro l
  induction l with
  | nil => intro _; simp
  | cons b bs ih =>
    intro h
    simp only [List.map_cons, List.sum_cons, List.length_cons]
    rw [h b (List.mem_cons_self b bs), ih (fun a ha => h a (List.mem_cons_of_mem b ha))]
    ring

namespace CounterProg

/-- The invariant holds initially. -/
theorem inv_init (N M : Nat) : Inv N M (init N M) := by
  have hmem : ∀ t ∈ List.replicate N (⟨Phase.idle, M⟩ : TState),
      t = (⟨Phase.idle, M⟩ : TState) := fun t ht => List.eq_of_mem_replicate ht
  refine ⟨by simp [init], ?_, ?_, ?_, ?_⟩
  · simp [init, contrib, List.map_replicate]
  · have : (List.replicate N (⟨Phase.idle, M⟩ : TState)).countP nonIdle = 0 :=
      List.countP_eq_zero.mpr (by
        intro t ht
        rw [hmem t ht]
        simp [nonIdle])
    simp only [init, this]
    omega
  · intro t ht
    rw [hmem t ht]
    exact ⟨Nat.le_refl M, fun hne => absurd rfl hne⟩
  · intro _ t ht
    rw [hmem t ht]

/-- One step preserves the invariant. -/
theorem inv_step (N M : Nat) (s s' : Sys) (hinv : Inv N M s) (hstep : Step s s') :
    Inv N M s' := by
  obtain ⟨hlen, hsum, hcnt, hbnd, hfree⟩ := hinv
  cases hstep with
  | acquire i t v hget hidle hrem hlock hv =>
    have hmem : t ∈ s.threads := List.getElem?_mem hget
    have hcontrib : contrib M t = M - t.rem := by rw [contrib, hidle]
    have hsum' := list_sum_map_set (contrib M) s.threads i ⟨Phase.locked, t.rem⟩ t hget
    have hcnt' := list_countP_set nonIdle s.threads i ⟨Phase.locked, t.rem⟩ t hget
    have hni : nonIdle t = false := by simp [nonIdle, hidle]
    have e1 : (if nonIdle t then 1 else 0) = 0 := by simp [hni]
    have e2 : (if nonIdle (⟨Phase.locked, t.rem⟩ : TState) then 1 else 0) = 1 := rfl
    rw [e1, e2] at hcnt'
    have hc2 : contrib M (⟨Phase.locked, t.rem⟩ : TState) = M - t.rem := rfl
    rw [hc2, hcontrib] at hsum'
    have hzero : s.threads.countP nonIdle = 0 :=
      List.countP_eq_zero.mpr (by
        intro a ha
        simp [nonIdle, hfree hlock a ha])
    refine ⟨by simpa using hlen, ?_, ?_, ?_, ?_⟩
    · show s.counter = ((s.threads.set i ⟨Phase.locked, t.rem⟩).map (contrib M)).sum
      omega
    · show (s.threads.set i ⟨Phase.locked, t.rem⟩).countP nonIdle ≤ 1
      omega
    · intro t' ht'
      rcases List.mem_or_eq_of_mem_set ht' with h | h
      · exact hbnd t' h
      · subst h
        exact ⟨(hbnd t hmem).1, fun _ => show 1 ≤ t.rem by omega⟩
    · intro hv0
      have hv0' : v = 0 := hv0
      rcases hv with h | h <;> omega
  | markWaiters i t hget hidle hrem hlock =>
    exact ⟨hlen, hsum, hcnt, hbnd,
      fun h0 => absurd (show (2 : Nat) = 0 from h0) (by decide)⟩
  | incr i t hget hlocked =>
    have hmem : t ∈ s.threads := List.getElem?_mem hget
    have hcontrib : contrib M t = M - t.rem := by rw [contrib, hlocked]
    have hge : 1 ≤ t.rem := (hbnd t hmem).2 (by rw [hlocked]; decide)
    have hsum' := list_sum_map_set (contrib M) s.threads i ⟨Phase.inced, t.rem⟩ t hget
    have hcnt' := list_countP_set nonIdle s.threads i ⟨Phase.inced, t.rem⟩ t hget
    have hni : nonIdle t = true := by simp [nonIdle, hlocked]
    have e1 : (if nonIdle t then 1 else 0) = 1 := by simp [hni]
    have e2 : (if nonIdle (⟨Phase.inced, t.rem⟩ : TState) then 1 else 0) = 1 := rfl
    rw [e1, e2] at hcnt'
    have hc2 : contrib M (⟨Phase.inced, t.rem⟩ : TState) = M - t.rem + 1 := rfl
    rw [hc2, hcontrib] at hsum'
    refine ⟨by simpa using hlen, ?_, ?_, ?_, ?_⟩
    · show s.counter + 1 = ((s.threads.set i ⟨Phase.inced, t.rem⟩).map (contrib M)).sum
      omega
    · show (s.threads.set i ⟨Phase.inced, t.rem⟩).countP nonIdle ≤ 1
      omega
    · intro t' ht'
      rcases List.mem_or_eq_of_mem_set ht' with h | h
      · exact hbnd t' h
      · subst h
        exact ⟨(hbnd t hmem).1, fun _ => hge⟩
    · intro h0
      have := hfree h0 t hmem
      rw [hlocked] at this
      exact Phase.noConfusion this
  | release i t hget hinced =>
    have hmem : t ∈ s.threads := List.getElem?_mem hget
    have hrem1 : 1 ≤ t.rem := (hbnd t hmem).2 (by rw [hinced]; decide)
    have hremM : t.rem ≤ M := (hbnd t hmem).1
    have hcontrib : contrib M t = M - t.rem + 1 := by rw [contrib, hinced]
    have hsum' := list_sum_map_set (contrib M) s.threads i ⟨Phase.idle, t.rem - 1⟩ t hget
    have hcnt' := list_countP_set nonIdle s.threads i ⟨Phase.idle, t.rem - 1⟩ t hget
    have hni : nonIdle t = true := by simp [nonIdle, hinced]
    have e1 : (if nonIdle t then 1 else 0) = 1 := by simp [hni]
    have e2 : (if nonIdle (⟨Phase.idle, t.rem - 1⟩ : TState) then 1 else 0) = 0 := rfl
    rw [e1, e2] at hcnt'
    have hcnt0 : (s.threads.set i ⟨Phase.idle, t.rem - 1⟩).countP nonIdle = 0 := by
      omega
    have hc2 : contrib M (⟨Phase.idle, t.rem - 1⟩ : TState) = M - (t.rem - 1) := rfl
    rw [hc2, hcontrib] at hsum'
    refine ⟨by simpa using hlen, ?_, ?_, ?_, ?_⟩
    · show s.counter = ((s.threads.set i ⟨Phase.idle, t.rem - 1⟩).map (contrib M)).sum
      omega
    · show (s.threads.set i ⟨Phase.idle, t.rem - 1⟩).countP nonIdle ≤ 1
      omega
    · intro t' ht'
      rcases List.mem_or_eq_of_mem_set ht' with h | h
      · exact hbnd t' h
      · subst h
        exact ⟨show t.rem - 1 ≤ M by omega, fun hne => absurd rfl hne⟩
    · intro _ t' ht'
      have hx := List.countP_eq_zero.mp hcnt0 t' ht'
      by_contra hne
      exact hx (by simp [nonIdle, hne])

/-- Every state reachable from the initial configuration satisfies the
invariant. -/
theorem inv_steps (N M : Nat) (s : Sys) (h : Steps (init N M) s) : Inv N M s := by
  induction h with
  | refl => exact inv_init N M
  | tail _ hstep ih => exact inv_step N M _ _ ih hstep

end CounterProg

/-- C8: mutual exclusion for the counter programs.  For all `N` threads
each incrementing the shared counter `M` times under a SpinLock or
BlockingMutex guard (every interleaving of the atomic actions of
`spin-lock/src/main.rs` and of the `to_100000` test of `mutex.rs` is a
`Steps` run of the model), once every thread has finished the counter
equals exactly `N * M` — in particular for `N, M ∈ {1, 10, 10000}`. -/
theorem counterProg_c8_mutual_exclusion (N M : Nat) (s : CounterProg.Sys)
    (hreach : CounterProg.Steps (CounterProg.init N M) s)
    (hdone : ∀ t ∈ s.threads, t.phase = CounterProg.Phase.idle ∧ t.rem = 0) :
    s.counter = N * M := by
  obtain ⟨hlen, hsum, -, -, -⟩ := CounterProg.inv_steps N M s hreach
  have hconst : ∀ t ∈ s.threads, CounterProg.contrib M t = M := by
    intro t ht
    obtain ⟨hph, hr⟩ := hdone t ht
    rw [CounterProg.contrib, hph, hr]
    exact Nat.sub_zero M
  rw [hsum, list_sum_map_const (CounterProg.contrib M) M s.threads hconst, hlen]

/-- C8 witness: one thread, one increment, run to completion: the
counter ends at `1 * 1`. -/
theorem counterProg_c8_witness :
    CounterProg.Steps (CounterProg.init 1 1)
      ⟨0, 1, [⟨CounterProg.Phase.idle, 0⟩]⟩ ∧
    (∀ t ∈ (CounterProg.Sys.mk 0 1 [⟨CounterProg.Phase.idle, 0⟩]).threads,
        t.phase = CounterProg.Phase.idle ∧ t.rem = 0) ∧
    (CounterProg.Sys.mk 0 1 [⟨CounterProg.Phase.idle, 0⟩]).counter = 1 * 1 := by
  have h1 : CounterProg.Step (CounterProg.init 1 1)
      ⟨1, 0, [⟨CounterProg.Phase.locked, 1⟩]⟩ :=
    CounterProg.Step.acquire 0 ⟨CounterProg.Phase.idle, 1⟩ 1 rfl rfl
      (by decide) rfl (Or.inl rfl)
  have h2 : CounterProg.Step (⟨1, 0, [⟨CounterProg.Phase.locked, 1⟩]⟩ : CounterProg.Sys)
      ⟨1, 1, [⟨CounterProg.Phase.inced, 1⟩]⟩ :=
    CounterProg.Step.incr 0 ⟨CounterProg.Phase.locked, 1⟩ rfl rfl
  have h3 : CounterProg.Step (⟨1, 1, [⟨CounterProg.Phase.inced, 1⟩]⟩ : CounterProg.Sys)
      ⟨0, 1, [⟨CounterProg.Phase.idle, 0⟩]⟩ :=
    CounterProg.Step.release 0 ⟨CounterProg.Phase.inced, 1⟩ rfl rfl
  have chain : CounterProg.Steps (CounterProg.init 1 1)
      ⟨0, 1, [⟨CounterProg.Phase.idle, 0⟩]⟩ :=
    CounterProg.Steps.tail
      (CounterProg.Steps.tail (CounterProg.Steps.tail (CounterProg.Steps.refl _) h1) h2) h3
  exact ⟨chain, by decide,
    counterProg_c8_mutual_exclusion 1 1 _ chain (by decide)⟩
